import Mathlib

/-!
Verification of the Forbes-Selfie server (src/server.js).

Shallow embedding conventions:
- JavaScript strings that carry binary data (plaintexts, ciphertexts, base64
  blobs) are modelled as `List Nat` of byte values (each < 256); a JS string
  is identified with its UTF-8 byte sequence, which is a bijection on the
  valid inputs considered here.
- The AES-256 block cipher provided by node's crypto library is modelled as
  an abstract `BlockCipher` (a keyed pair of functions on 16-byte blocks);
  the property that decryption inverts encryption on blocks is the crypto
  library's contract and appears as the `BlockCipher.Good` hypothesis.
- CBC chaining, PKCS#7 padding (node's default autopadding), base64
  encoding/decoding, and the key derivation `padEnd(32).slice(0, 32)` are
  modelled concretely, following the source.
- ISO timestamp strings are modelled by their epoch-millisecond values
  (`Int`), since the code only ever compares them via `new Date(s).getTime()`.
-/

/-! ## Base64 (node `Buffer.toString('base64')` / `Buffer.from(s, 'base64')`) -/

/-- Base64 alphabet as ASCII codes: A-Z, a-z, 0-9, +, /. -/
def base64Ascii : List Nat :=
  (List.range 26).map (fun i => 65 + i) ++ (List.range 26).map (fun i => 97 + i) ++
    (List.range 10).map (fun i => 48 + i) ++ [43, 47]

/-- ASCII code of the base64 character for a 6-bit value. -/
def sextetAscii (n : Nat) : Nat := base64Ascii.getD n 65

/-- Inverse alphabet lookup; `none` for characters outside the alphabet
(node's forgiving decoder skips such characters, including `=`). -/
def asciiToSextet (c : Nat) : Option Nat := base64Ascii.indexOf? c

/-- Base64-encode a byte list, processing groups of three bytes; the final
final short group is padded with `=` (ASCII 61) as node does. -/
def b64encodeGroups : List Nat → List Nat
  | a :: b :: c :: rest =>
    sextetAscii (a / 4) :: sextetAscii (a % 4 * 16 + b / 16) ::
      sextetAscii (b % 16 * 4 + c / 64) :: sextetAscii (c % 64) :: b64encodeGroups rest
  | [a, b] => [sextetAscii (a / 4), sextetAscii (a % 4 * 16 + b / 16), sextetAscii (b % 16 * 4), 61]
  | [a] => [sextetAscii (a / 4), sextetAscii (a % 4 * 16), 61, 61]
  | [] => []

/-- Base64-encode a byte list into the ASCII codes of its base64 text. -/
def b64encode (bs : List Nat) : List Nat := b64encodeGroups bs

/-- Decode a list of 6-bit values into bytes, four sextets giving three
bytes; a trailing group of three (resp. two) sextets gives two bytes
(resp. one byte), and a single trailing sextet contributes nothing. -/
def b64decodeSextets : List Nat → List Nat
  | w :: x :: y :: z :: rest =>
    (w * 4 + x / 16) :: (x % 16 * 16 + y / 4) :: (y % 4 * 64 + z) :: b64decodeSextets rest
  | [w, x, y] => [w * 4 + x / 16, x % 16 * 16 + y / 4]
  | [w, x] => [w * 4 + x / 16]
  | [_] => []
  | [] => []

/-- Base64-decode: keep alphabet characters only (node ignores `=` and any
invalid character), then regroup sextets into bytes. -/
def b64decode (s : List Nat) : List Nat := b64decodeSextets (s.filterMap asciiToSextet)

theorem asciiToSextet_sextetAscii : ∀ n < 64, asciiToSextet (sextetAscii n) = some n := by
  decide

theorem asciiToSextet_eq : asciiToSextet 61 = none := by decide

theorem b64_roundtrip_groups :
    ∀ bs : List Nat, (∀ x ∈ bs, x < 256) →
      b64decodeSextets (List.filterMap asciiToSextet (b64encodeGroups bs)) = bs
  | a :: b :: c :: rest, h => by
    have ha : a < 256 := h a (by simp)
    have hb : b < 256 := h b (by simp)
    have hc : c < 256 := h c (by simp)
    have ih := b64_roundtrip_groups rest (fun x hx => h x (by simp [hx]))
    simp only [b64encodeGroups, List.filterMap_cons,
      asciiToSextet_sextetAscii _ (by omega : a / 4 < 64),
      asciiToSextet_sextetAscii _ (by omega : a % 4 * 16 + b / 16 < 64),
      asciiToSextet_sextetAscii _ (by omega : b % 16 * 4 + c / 64 < 64),
      asciiToSextet_sextetAscii _ (by omega : c % 64 < 64)]
    simp only [b64decodeSextets, ih]
    refine List.cons_eq_cons.mpr ⟨by omega, List.cons_eq_cons.mpr ⟨by omega,
      List.cons_eq_cons.mpr ⟨by omega, rfl⟩⟩⟩
  | [a, b], h => by
    have ha : a < 256 := h a (by simp)
    have hb : b < 256 := h b (by simp)
    simp only [b64encodeGroups, List.filterMap_cons,
      asciiToSextet_sextetAscii _ (by omega : a / 4 < 64),
      asciiToSextet_sextetAscii _ (by omega : a % 4 * 16 + b / 16 < 64),
      asciiToSextet_sextetAscii _ (by omega : b % 16 * 4 < 64),
      asciiToSextet_eq, List.filterMap_nil]
    simp only [b64decodeSextets]
    refine List.cons_eq_cons.mpr ⟨by omega, List.cons_eq_cons.mpr ⟨by omega, rfl⟩⟩
  | [a], h => by
    have ha : a < 256 := h a (by simp)
    simp only [b64encodeGroups, List.filterMap_cons,
      asciiToSextet_sextetAscii _ (by omega : a / 4 < 64),
      asciiToSextet_sextetAscii _ (by omega : a % 4 * 16 < 64),
      asciiToSextet_eq, List.filterMap_nil]
    simp only [b64decodeSextets]
    refine List.cons_eq_cons.mpr ⟨by omega, rfl⟩
  | [], _ => rfl

theorem b64_roundtrip (bs : List Nat) (h : ∀ x ∈ bs, x < 256) :
    b64decode (b64encode bs) = bs :=
  b64_roundtrip_groups bs h

theorem b64encodeGroups_ne_nil (bs : List Nat) (h : bs ≠ []) : b64encodeGroups bs ≠ [] := by
  match bs with
  | [] => exact absurd rfl h
  | [a] => simp [b64encodeGroups]
  | [a, b] => simp [b64encodeGroups]
  | a :: b :: c :: rest => simp [b64encodeGroups]


/-! ## PKCS#7 padding (node cipher autopadding, aes-256-cbc block size 16) -/

/-- Pad a byte list to a multiple of 16 bytes; the pad byte equals the pad
length, which is always between 1 and 16. -/
def pkcs7pad (bs : List Nat) : List Nat :=
  bs ++ List.replicate (16 - bs.length % 16) (16 - bs.length % 16)

/-- Strip PKCS#7 padding; `none` models the `bad decrypt` exception thrown
by `decipher.final()` on invalid padding. -/
def pkcs7unpad (bs : List Nat) : Option (List Nat) :=
  if 1 ≤ bs.getLast?.getD 0 ∧ bs.getLast?.getD 0 ≤ 16 ∧ bs.getLast?.getD 0 ≤ bs.length ∧
      (bs.drop (bs.length - bs.getLast?.getD 0)).all (fun x => x == bs.getLast?.getD 0) then
    some (bs.take (bs.length - bs.getLast?.getD 0))
  else none

theorem pkcs7unpad_append (bs : List Nat) (q : Nat) (h16 : q + 1 ≤ 16) :
    pkcs7unpad (bs ++ List.replicate (q + 1) (q + 1)) = some bs := by
  have hrep : List.replicate (q + 1) (q + 1) = List.replicate q (q + 1) ++ [q + 1] :=
    List.replicate_succ' ..
  have hlast : (bs ++ List.replicate (q + 1) (q + 1)).getLast? = some (q + 1) := by
    rw [hrep, ← List.append_assoc, List.getLast?_concat]
  have hlen : (bs ++ List.replicate (q + 1) (q + 1)).length = bs.length + (q + 1) := by
    simp [List.length_append, List.length_replicate]
  simp only [pkcs7unpad, hlast, Option.getD_some]
  rw [if_pos]
  · rw [hlen, show bs.length + (q + 1) - (q + 1) = bs.length by omega, List.take_left' rfl]
  · refine ⟨by omega, by omega, by rw [hlen]; omega, ?_⟩
    rw [hlen, show bs.length + (q + 1) - (q + 1) = bs.length by omega, List.drop_left' rfl]
    simp [List.all_eq_true, List.mem_replicate]

theorem pkcs7_roundtrip (bs : List Nat) : pkcs7unpad (pkcs7pad bs) = some bs := by
  obtain ⟨q, hq⟩ : ∃ q, 16 - bs.length % 16 = q + 1 :=
    ⟨16 - bs.length % 16 - 1, by omega⟩
  rw [pkcs7pad, hq]
  exact pkcs7unpad_append bs q (by omega)

theorem pkcs7pad_mod (bs : List Nat) : (pkcs7pad bs).length % 16 = 0 := by
  simp only [pkcs7pad, List.length_append, List.length_replicate]
  omega

theorem pkcs7pad_ne_nil (bs : List Nat) : pkcs7pad bs ≠ [] := by
  intro h
  have := congrArg List.length h
  simp only [pkcs7pad, List.length_append, List.length_replicate, List.length_nil] at this
  omega

theorem pkcs7pad_bytes (bs : List Nat) (h : ∀ x ∈ bs, x < 256) :
    ∀ x ∈ pkcs7pad bs, x < 256 := by
  intro x hx
  rcases List.mem_append.mp hx with h1 | h2
  · exact h x h1
  · have := List.eq_of_mem_replicate h2
    omega

/-! ## Splitting into, and joining, 16-byte blocks -/

/-- Concatenate a list of blocks back into a byte list. -/
def joinBlocks : List (List Nat) → List Nat
  | [] => []
  | b :: rest => b ++ joinBlocks rest

/-- Split a byte list into consecutive 16-byte blocks (the last block may be
shorter when the length is not a multiple of 16). -/
def toBlocks (bs : List Nat) : List (List Nat) :=
  if h : bs = [] then [] else bs.take 16 :: toBlocks (bs.drop 16)
termination_by bs.length
decreasing_by
  simp only [List.length_drop]
  have : 0 < bs.length := List.length_pos.mpr h
  omega

theorem joinBlocks_toBlocks (bs : List Nat) : joinBlocks (toBlocks bs) = bs := by
  have H : ∀ n, ∀ bs : List Nat, bs.length ≤ n → joinBlocks (toBlocks bs) = bs := by
    intro n
    induction n with
    | zero =>
      intro bs hlen
      have hnil : bs = [] := List.eq_nil_of_length_eq_zero (by omega)
      rw [hnil, toBlocks]
      simp [joinBlocks]
    | succ n ih =>
      intro bs hlen
      rw [toBlocks]
      split
      · rename_i hnil
        simp [joinBlocks, hnil]
      · rename_i hne
        have hpos : 0 < bs.length := List.length_pos.mpr hne
        rw [joinBlocks, ih (bs.drop 16) (by simp only [List.length_drop]; omega),
          List.take_append_drop]
  exact H bs.length bs le_rfl

theorem toBlocks_length (bs : List Nat) (hmod : bs.length % 16 = 0) :
    ∀ b ∈ toBlocks bs, b.length = 16 := by
  have H : ∀ n, ∀ bs : List Nat, bs.length ≤ n → bs.length % 16 = 0 →
      ∀ b ∈ toBlocks bs, b.length = 16 := by
    intro n
    induction n with
    | zero =>
      intro bs hlen _ b hb
      have hnil : bs = [] := List.eq_nil_of_length_eq_zero (by omega)
      rw [hnil, toBlocks] at hb
      simp at hb
    | succ n ih =>
      intro bs hlen hm b hb
      rw [toBlocks] at hb
      split at hb
      · simp at hb
      · rename_i hne
        have hpos : 0 < bs.length := List.length_pos.mpr hne
        have h16 : 16 ≤ bs.length := by omega
        rcases List.mem_cons.mp hb with h1 | h2
        · rw [h1, List.length_take]; omega
        · exact ih (bs.drop 16) (by simp only [List.length_drop]; omega)
            (by simp only [List.length_drop]; omega) b h2
  exact H bs.length bs le_rfl hmod

theorem toBlocks_mem (bs : List Nat) : ∀ b ∈ toBlocks bs, ∀ x ∈ b, x ∈ bs := by
  have H : ∀ n, ∀ bs : List Nat, bs.length ≤ n → ∀ b ∈ toBlocks bs, ∀ x ∈ b, x ∈ bs := by
    intro n
    induction n with
    | zero =>
      intro bs hlen b hb
      have hnil : bs = [] := List.eq_nil_of_length_eq_zero (by omega)
      rw [hnil, toBlocks] at hb
      simp at hb
    | succ n ih =>
      intro bs hlen b hb x hx
      rw [toBlocks] at hb
      split at hb
      · simp at hb
      · rename_i hne
        have hpos : 0 < bs.length := List.length_pos.mpr hne
        rcases List.mem_cons.mp hb with h1 | h2
        · exact List.mem_of_mem_take (h1 ▸ hx)
        · exact List.mem_of_mem_drop
            (ih (bs.drop 16) (by simp only [List.length_drop]; omega) b h2 x hx)
  exact H bs.length bs le_rfl

theorem toBlocks_joinBlocks (blocks : List (List Nat))
    (h : ∀ b ∈ blocks, b.length = 16) : toBlocks (joinBlocks blocks) = blocks := by
  induction blocks with
  | nil => rw [joinBlocks, toBlocks]; simp
  | cons b rest ih =>
    have hb : b.length = 16 := h b (by simp)
    rw [joinBlocks, toBlocks]
    have hne : ¬ b ++ joinBlocks rest = [] := by
      intro hcontra
      have := congrArg List.length hcontra
      simp only [List.length_append, List.length_nil] at this
      omega
    rw [dif_neg hne, List.take_left' hb, List.drop_left' hb,
      ih (fun x hx => h x (by simp [hx]))]

theorem joinBlocks_length (blocks : List (List Nat))
    (h : ∀ b ∈ blocks, b.length = 16) : (joinBlocks blocks).length = 16 * blocks.length := by
  induction blocks with
  | nil => rfl
  | cons b rest ih =>
    rw [joinBlocks, List.length_append, h b (by simp),
      ih (fun x hx => h x (by simp [hx])), List.length_cons]
    ring

theorem joinBlocks_bytes (blocks : List (List Nat))
    (h : ∀ b ∈ blocks, ∀ x ∈ b, x < 256) : ∀ x ∈ joinBlocks blocks, x < 256 := by
  induction blocks with
  | nil => intro x hx; simp [joinBlocks] at hx
  | cons b rest ih =>
    intro x hx
    rw [joinBlocks] at hx
    rcases List.mem_append.mp hx with h1 | h2
    · exact h b (by simp) x h1
    · exact ih (fun c hc y hy => h c (by simp [hc]) y hy) x h2

/-! ## CBC mode over an abstract AES-256 block cipher -/

/-- The AES-256 block cipher of node's crypto library, abstracted: keyed
encryption and decryption of 16-byte blocks. -/
structure BlockCipher where
  enc : List Nat → List Nat → List Nat
  dec : List Nat → List Nat → List Nat

/-- A well-formed 16-byte block. -/
def ByteBlock (b : List Nat) : Prop := b.length = 16 ∧ ∀ x ∈ b, x < 256

/-- The crypto library's contract for aes-256-cbc blocks: encryption maps
blocks to blocks and decryption inverts it. -/
def BlockCipher.Good (C : BlockCipher) (key : List Nat) : Prop :=
  ∀ b, ByteBlock b → ByteBlock (C.enc key b) ∧ C.dec key (C.enc key b) = b

/-- Bytewise xor of two equal-length byte lists. -/
def listXor (a b : List Nat) : List Nat := List.zipWith (fun x y => x ^^^ y) a b

/-- CBC encryption: each plaintext block is xored with the previous
ciphertext block (initially the IV) and passed through the cipher. -/
def cbcEnc (C : BlockCipher) (key : List Nat) : List Nat → List (List Nat) → List (List Nat)
  | _, [] => []
  | prev, p :: ps => C.enc key (listXor p prev) :: cbcEnc C key (C.enc key (listXor p prev)) ps

/-- CBC decryption: each ciphertext block is deciphered and xored with the
previous ciphertext block (initially the IV). -/
def cbcDec (C : BlockCipher) (key : List Nat) : List Nat → List (List Nat) → List (List Nat)
  | _, [] => []
  | prev, c :: cs => listXor (C.dec key c) prev :: cbcDec C key c cs

theorem listXor_length (a b : List Nat) : (listXor a b).length = min a.length b.length := by
  simp [listXor]

theorem listXor_bytes (a : List Nat) : ∀ b : List Nat, (∀ x ∈ a, x < 256) →
    (∀ x ∈ b, x < 256) → ∀ x ∈ listXor a b, x < 256 := by
  induction a with
  | nil => intro b _ _ x hx; simp [listXor] at hx
  | cons v vs ih =>
    intro b ha hb x hx
    cases b with
    | nil => simp [listXor] at hx
    | cons w ws =>
      simp only [listXor, List.zipWith_cons_cons] at hx
      rcases List.mem_cons.mp hx with h1 | h2
      · have h1a : v < 2 ^ 8 := ha v (by simp)
        have h1b : w < 2 ^ 8 := hb w (by simp)
        have := Nat.xor_lt_two_pow h1a h1b
        omega
      · exact ih ws (fun y hy => ha y (by simp [hy])) (fun y hy => hb y (by simp [hy])) x h2

theorem byteBlock_xor (a b : List Nat) (ha : ByteBlock a) (hb : ByteBlock b) :
    ByteBlock (listXor a b) := by
  refine ⟨?_, listXor_bytes a b ha.2 hb.2⟩
  rw [listXor_length, ha.1, hb.1]
  omega

theorem listXor_cancel (a b : List Nat) (h : a.length = b.length) :
    listXor (listXor a b) b = a := by
  induction a generalizing b with
  | nil => simp [listXor]
  | cons x xs ih =>
    cases b with
    | nil => simp at h
    | cons y ys =>
      simp only [listXor, List.zipWith_cons_cons] at ih ⊢
      rw [Nat.xor_cancel_right]
      exact congrArg _ (ih ys (by simpa using h))

theorem cbc_roundtrip (C : BlockCipher) (key : List Nat) (hC : C.Good key) :
    ∀ ps : List (List Nat), ∀ prev : List Nat, ByteBlock prev →
      (∀ p ∈ ps, ByteBlock p) → cbcDec C key prev (cbcEnc C key prev ps) = ps := by
  intro ps
  induction ps with
  | nil => intro prev _ _; rfl
  | cons p rest ih =>
    intro prev hprev hps
    have hp : ByteBlock p := hps p (by simp)
    have hxor : ByteBlock (listXor p prev) := byteBlock_xor p prev hp hprev
    obtain ⟨hcblock, hcinv⟩ := hC (listXor p prev) hxor
    rw [cbcEnc, cbcDec, hcinv,
      listXor_cancel p prev (by rw [hp.1, hprev.1]),
      ih (C.enc key (listXor p prev)) hcblock (fun x hx => hps x (by simp [hx]))]

theorem cbcEnc_blocks (C : BlockCipher) (key : List Nat) (hC : C.Good key) :
    ∀ ps : List (List Nat), ∀ prev : List Nat, ByteBlock prev →
      (∀ p ∈ ps, ByteBlock p) → ∀ c ∈ cbcEnc C key prev ps, ByteBlock c := by
  intro ps
  induction ps with
  | nil => intro prev _ _ c hc; simp [cbcEnc] at hc
  | cons p rest ih =>
    intro prev hprev hps c hc
    have hp : ByteBlock p := hps p (by simp)
    have hxor : ByteBlock (listXor p prev) := byteBlock_xor p prev hp hprev
    obtain ⟨hcblock, _⟩ := hC (listXor p prev) hxor
    rw [cbcEnc] at hc
    rcases List.mem_cons.mp hc with h1 | h2
    · rw [h1]; exact hcblock
    · exact ih (C.enc key (listXor p prev)) hcblock (fun x hx => hps x (by simp [hx])) c h2

/-! ## The codec of src/server.js: `encryptData` / `decryptData` -/

/-- Key derivation `Buffer.from(ENCRYPTION_KEY.padEnd(32).slice(0, 32))`:
pad the passphrase bytes with spaces (byte 32) to 32 bytes, truncate to 32. -/
def deriveKey (keyStr : List Nat) : List Nat :=
  (keyStr ++ List.replicate (32 - keyStr.length) 32).take 32

/-- The server's `encryptData`: AES-256-CBC-encrypt the plaintext under the
derived key with the given 16-byte IV (`crypto.randomBytes(16)` modelled as
a parameter), prepend the IV and base64-encode.  The catch branch of the
source is unreachable for well-formed key and IV and is not modelled. -/
def encryptData (C : BlockCipher) (keyStr iv text : List Nat) : List Nat :=
  b64encode (iv ++ joinBlocks (cbcEnc C (deriveKey keyStr) iv (toBlocks (pkcs7pad text))))

/-- The server's `decryptData`: `none` models the `null` returned on empty
input; `some s` with the original input models the silent fallback
`return b64` taken whenever base64-decoding yields fewer than 32 bytes, the
ciphertext is not a whole number of blocks, or unpadding fails. -/
def decryptData (C : BlockCipher) (keyStr : List Nat) (s : List Nat) : Option (List Nat) :=
  if s = [] then none
  else
    if (b64decode s).length < 32 then some s
    else
      if ((b64decode s).drop 16).length % 16 = 0 then
        match pkcs7unpad (joinBlocks (cbcDec C (deriveKey keyStr) ((b64decode s).take 16)
            (toBlocks ((b64decode s).drop 16)))) with
        | some plain => some plain
        | none => some s
      else some s

theorem cbcEnc_length (C : BlockCipher) (key : List Nat) :
    ∀ ps : List (List Nat), ∀ prev : List Nat, (cbcEnc C key prev ps).length = ps.length := by
  intro ps
  induction ps with
  | nil => intro prev; rfl
  | cons p rest ih => intro prev; rw [cbcEnc, List.length_cons, List.length_cons, ih]

theorem toBlocks_ne_nil (bs : List Nat) (h : bs ≠ []) : toBlocks bs ≠ [] := by
  rw [toBlocks, dif_neg h]
  simp

/-- C1: decrypting the blob produced by `encryptData` returns the original
plaintext, for any AES block cipher satisfying the crypto library's
contract, any passphrase, any 16-byte random IV, and any plaintext byte
sequence. -/
theorem C1_encrypt_decrypt_roundtrip (C : BlockCipher) (keyStr iv text : List Nat)
    (hC : C.Good (deriveKey keyStr)) (hiv : ByteBlock iv)
    (htext : ∀ x ∈ text, x < 256) :
    decryptData C keyStr (encryptData C keyStr iv text) = some text := by
  have hpadmod := pkcs7pad_mod text
  have hblocksBB : ∀ b ∈ toBlocks (pkcs7pad text), ByteBlock b := by
    intro b hb
    exact ⟨toBlocks_length _ hpadmod b hb,
      fun x hx => pkcs7pad_bytes text htext x (toBlocks_mem _ b hb x hx)⟩
  have hct : ∀ c ∈ cbcEnc C (deriveKey keyStr) iv (toBlocks (pkcs7pad text)), ByteBlock c :=
    cbcEnc_blocks C _ hC _ iv hiv hblocksBB
  have hct16 : ∀ c ∈ cbcEnc C (deriveKey keyStr) iv (toBlocks (pkcs7pad text)), c.length = 16 :=
    fun c hc => (hct c hc).1
  have hjblen : (joinBlocks (cbcEnc C (deriveKey keyStr) iv (toBlocks (pkcs7pad text)))).length =
      16 * (cbcEnc C (deriveKey keyStr) iv (toBlocks (pkcs7pad text))).length :=
    joinBlocks_length _ hct16
  have hctlen : (cbcEnc C (deriveKey keyStr) iv (toBlocks (pkcs7pad text))).length =
      (toBlocks (pkcs7pad text)).length := cbcEnc_length C _ _ iv
  have hblocksne : toBlocks (pkcs7pad text) ≠ [] := toBlocks_ne_nil _ (pkcs7pad_ne_nil text)
  have hblockspos : 0 < (toBlocks (pkcs7pad text)).length := List.length_pos.mpr hblocksne
  have hall : ∀ x ∈ iv ++ joinBlocks (cbcEnc C (deriveKey keyStr) iv
      (toBlocks (pkcs7pad text))), x < 256 := by
    intro x hx
    rcases List.mem_append.mp hx with h1 | h2
    · exact hiv.2 x h1
    · exact joinBlocks_bytes _ (fun b hb => (hct b hb).2) x h2
  have hne : iv ++ joinBlocks (cbcEnc C (deriveKey keyStr) iv
      (toBlocks (pkcs7pad text))) ≠ [] := by
    intro hcontra
    have := congrArg List.length hcontra
    simp only [List.length_append, List.length_nil] at this
    rw [hiv.1] at this
    omega
  have hbne : b64encode (iv ++ joinBlocks (cbcEnc C (deriveKey keyStr) iv
      (toBlocks (pkcs7pad text)))) ≠ [] := b64encodeGroups_ne_nil _ hne
  rw [encryptData, decryptData, if_neg hbne, b64_roundtrip _ hall]
  rw [if_neg (by rw [List.length_append, hiv.1, hjblen, hctlen]; omega)]
  rw [List.drop_left' hiv.1, List.take_left' hiv.1]
  rw [if_pos (by rw [hjblen]; omega)]
  rw [toBlocks_joinBlocks _ hct16, cbc_roundtrip C _ hC _ iv hiv hblocksBB,
    joinBlocks_toBlocks, pkcs7_roundtrip]

theorem encryptData_decode (C : BlockCipher) (keyStr iv text : List Nat)
    (hC : C.Good (deriveKey keyStr)) (hiv : ByteBlock iv)
    (htext : ∀ x ∈ text, x < 256) :
    b64decode (encryptData C keyStr iv text) =
      iv ++ joinBlocks (cbcEnc C (deriveKey keyStr) iv (toBlocks (pkcs7pad text))) := by
  have hblocksBB : ∀ b ∈ toBlocks (pkcs7pad text), ByteBlock b := by
    intro b hb
    exact ⟨toBlocks_length _ (pkcs7pad_mod text) b hb,
      fun x hx => pkcs7pad_bytes text htext x (toBlocks_mem _ b hb x hx)⟩
  have hct : ∀ c ∈ cbcEnc C (deriveKey keyStr) iv (toBlocks (pkcs7pad text)), ByteBlock c :=
    cbcEnc_blocks C _ hC _ iv hiv hblocksBB
  have hall : ∀ x ∈ iv ++ joinBlocks (cbcEnc C (deriveKey keyStr) iv
      (toBlocks (pkcs7pad text))), x < 256 := by
    intro x hx
    rcases List.mem_append.mp hx with h1 | h2
    · exact hiv.2 x h1
    · exact joinBlocks_bytes _ (fun b hb => (hct b hb).2) x h2
  rw [encryptData]
  exact b64_roundtrip _ hall

/-- C2: with the IV modelled as an input, encrypting the same plaintext
under two distinct 16-byte IVs yields two distinct base64 blobs, so two
invocations drawing fresh random IVs produce different ciphertext blobs. -/
theorem C2_fresh_iv_distinct_blobs (C : BlockCipher) (keyStr iv1 iv2 text : List Nat)
    (hC : C.Good (deriveKey keyStr)) (hiv1 : ByteBlock iv1) (hiv2 : ByteBlock iv2)
    (htext : ∀ x ∈ text, x < 256) (hne : iv1 ≠ iv2) :
    encryptData C keyStr iv1 text ≠ encryptData C keyStr iv2 text := by
  intro heq
  have h1 := encryptData_decode C keyStr iv1 text hC hiv1 htext
  have h2 := encryptData_decode C keyStr iv2 text hC hiv2 htext
  rw [heq, h2] at h1
  have htake := congrArg (List.take 16) h1
  rw [List.take_left' hiv2.1, List.take_left' hiv1.1] at htake
  exact hne htake.symm

/-- C3: on any non-empty input for which decoding fails (fewer than 32
decoded bytes, a ciphertext that is not a whole number of 16-byte blocks,
or invalid padding after deciphering) `decryptData` falls back to returning
the original input, wrapped in the same `some` constructor as a genuine
decryption result and hence indistinguishable from one. -/
theorem C3_error_returns_input (C : BlockCipher) (keyStr s : List Nat) (hne : s ≠ [])
    (hbad : (b64decode s).length < 32 ∨ ((b64decode s).drop 16).length % 16 ≠ 0 ∨
      pkcs7unpad (joinBlocks (cbcDec C (deriveKey keyStr) ((b64decode s).take 16)
        (toBlocks ((b64decode s).drop 16)))) = none) :
    decryptData C keyStr s = some s := by
  rw [decryptData, if_neg hne]
  by_cases hlen : (b64decode s).length < 32
  · rw [if_pos hlen]
  · rw [if_neg hlen]
    rcases hbad with h1 | h2 | h3
    · exact absurd h1 hlen
    · rw [if_neg h2]
    · by_cases hmod : ((b64decode s).drop 16).length % 16 = 0
      · rw [if_pos hmod, h3]
      · rw [if_neg hmod]

/-- C10: `decryptData` is a total function of its input: on the empty
(falsy) input it returns `none` (the JS `null`), and on any non-empty input
whose base64 decoding yields fewer than 32 bytes it returns the input
unchanged, for every block cipher alike - the quantification over the
cipher expresses that AES decryption is never invoked on that path. -/
theorem C10_null_and_short_input (keyStr s : List Nat) (hne : s ≠ [])
    (hshort : (b64decode s).length < 32) :
    (∀ C : BlockCipher, decryptData C keyStr [] = none) ∧
    (∀ C : BlockCipher, decryptData C keyStr s = some s) := by
  constructor
  · intro C
    rw [decryptData, if_pos rfl]
  · intro C
    rw [decryptData, if_neg hne, if_pos hshort]

/-! ## Concrete witnesses for the codec theorems -/

/-- Identity block cipher, a concrete instance of the crypto contract used
to evaluate the codec theorems on explicit inputs. -/
def idCipher : BlockCipher where
  enc := fun _ b => b
  dec := fun _ b => b

theorem idCipher_good (key : List Nat) : idCipher.Good key := fun _ hb => ⟨hb, rfl⟩

theorem C1_witness :
    idCipher.Good (deriveKey [75]) ∧ ByteBlock (List.replicate 16 0) ∧
      (∀ x ∈ [72, 73], x < 256) ∧
      decryptData idCipher [75] (encryptData idCipher [75] (List.replicate 16 0) [72, 73]) =
        some [72, 73] :=
  ⟨idCipher_good _, ⟨by decide, by decide⟩, by decide,
    C1_encrypt_decrypt_roundtrip idCipher [75] (List.replicate 16 0) [72, 73]
      (idCipher_good _) ⟨by decide, by decide⟩ (by decide)⟩

theorem C2_witness :
    idCipher.Good (deriveKey [75]) ∧ ByteBlock (List.replicate 16 0) ∧
      ByteBlock (List.replicate 16 1) ∧ (∀ x ∈ [72, 73], x < 256) ∧
      List.replicate 16 0 ≠ List.replicate 16 (1 : Nat) ∧
      encryptData idCipher [75] (List.replicate 16 0) [72, 73] ≠
        encryptData idCipher [75] (List.replicate 16 1) [72, 73] :=
  ⟨idCipher_good _, ⟨by decide, by decide⟩, ⟨by decide, by decide⟩, by decide, by decide,
    C2_fresh_iv_distinct_blobs idCipher [75] (List.replicate 16 0) (List.replicate 16 1)
      [72, 73] (idCipher_good _) ⟨by decide, by decide⟩ ⟨by decide, by decide⟩
      (by decide) (by decide)⟩

theorem C3_witness :
    ([65] : List Nat) ≠ [] ∧ (b64decode [65]).length < 32 ∧
      decryptData idCipher [75] [65] = some [65] :=
  ⟨by decide, by decide,
    C3_error_returns_input idCipher [75] [65] (by decide) (Or.inl (by decide))⟩

theorem C10_witness :
    ([65] : List Nat) ≠ [] ∧ (b64decode [65]).length < 32 ∧
      decryptData idCipher [75] [] = none ∧ decryptData idCipher [75] [65] = some [65] :=
  ⟨by decide, by decide,
    (C10_null_and_short_input [75] [65] (by decide) (by decide)).1 idCipher,
    (C10_null_and_short_input [75] [65] (by decide) (by decide)).2 idCipher⟩

/-! ## Server state: in-memory stores of src/server.js

String-valued identifiers (selfie codes, record ids) are modelled as Lean
strings; the JS objects `statusRecords`, `dataStorage` and `sessionStorage`
are modelled as association lists with JS-object semantics (lookup of the
first matching key, assignment overwriting in place, `delete` removing the
key).  Absent optional JS fields whose only use is truthiness testing
(`result_code`) are modelled by the equally falsy empty string. -/

/-- Decimal digit characters. -/
def digitChars : List Char := ['0', '1', '2', '3', '4', '5', '6', '7', '8', '9']

/-- The decimal digits of a natural number, most significant first,
modelling the JS number-to-string conversion in template literals. -/
def natDigitsAux : Nat → Nat → List Char
  | 0, _ => []
  | fuel + 1, n =>
    if n < 10 then [digitChars.getD n (Char.ofNat 48)]
    else natDigitsAux fuel (n / 10) ++ [digitChars.getD (n % 10) (Char.ofNat 48)]

/-- Decimal string of a natural number; the fuel `n + 1` always exceeds the
digit count, so the exhaustion branch is unreachable. -/
def natDigits (n : Nat) : String := String.mk (natDigitsAux (n + 1) n)

/-- Lowercase/uppercase ASCII letter pairs. -/
def lowerUpperPairs : List (Char × Char) :=
  [('a', 'A'), ('b', 'B'), ('c', 'C'), ('d', 'D'), ('e', 'E'), ('f', 'F'), ('g', 'G'),
   ('h', 'H'), ('i', 'I'), ('j', 'J'), ('k', 'K'), ('l', 'L'), ('m', 'M'), ('n', 'N'),
   ('o', 'O'), ('p', 'P'), ('q', 'Q'), ('r', 'R'), ('s', 'S'), ('t', 'T'), ('u', 'U'),
   ('v', 'V'), ('w', 'W'), ('x', 'X'), ('y', 'Y'), ('z', 'Z')]

/-- JS `toUpperCase()` on one character, for the ASCII range produced by
`Math.random().toString(36)`. -/
def jsUpperChar (c : Char) : Char :=
  ((lowerUpperPairs.find? (fun p => p.1 == c)).map (fun p => p.2)).getD c

/-- JS `toUpperCase()` on a string. -/
def jsUpper (s : String) : String := String.mk (s.data.map jsUpperChar)

/-- The server's `generateId`: `'FS_' + Date.now() + '_' + random suffix`,
with the random base36 suffix taken as a parameter. -/
def generateId (now : Int) (suffix : String) : String :=
  "FS_" ++ natDigits now.toNat ++ "_" ++ suffix

/-- A result code as minted by the server:
`'RESULT_' + Math.random().toString(36).substr(2, 12).toUpperCase() + '_' + Date.now()`,
with the random base36 suffix taken as a parameter. -/
def mintResultCode (suffix : String) (now : Int) : String :=
  "RESULT_" ++ jsUpper suffix ++ "_" ++ natDigits now.toNat

/-- A record of the `selfieRecords` array. -/
structure SelfieRecord where
  id : String
  selfie_code : String
  client_name : String
  encrypted_code : String
  source : String
  status : String
  result_code : String := ""
  created_at : Int
  updated_at : Int
  ip_address : String
  user_agent : String
deriving DecidableEq

/-- A record of the `statusRecords` object. -/
structure StatusRecord where
  status : String
  attempts : Nat
  created_at : Int
  result_code : String := ""
deriving DecidableEq

/-- An entry of the `sessionStorage` object (the spread session payload is
uninterpreted; `stored_at` and `expires_at` are set by the server after the
spread and hence always present). -/
structure SessionEntry where
  payload : String := ""
  stored_at : Int
  expires_at : Int
deriving DecidableEq

/-- The request's `data` JSON value, modelled by its serialization
(`JSON.stringify`, as UTF-8 bytes) together with its `selfie_code`
projection (empty string when absent or falsy). -/
structure DataVal where
  json : List Nat := []
  selfie_code : String := ""
deriving DecidableEq

/-- An entry of the `dataStorage` object.  `expires_at` is `none` for
entries written by `/api/store-data`, which sets no such field. -/
structure DataEntry where
  dataVal : Option DataVal := none
  source : String := ""
  page_url : String := ""
  stored_at : Int
  expires_at : Option Int := none
  status : String := ""
deriving DecidableEq

/-- The whole mutable state of the server process. -/
structure ServerState where
  selfieRecords : List SelfieRecord := []
  statusRecords : List (String × StatusRecord) := []
  dataStorage : List (String × DataEntry) := []
  sessionStorage : List (String × SessionEntry) := []
deriving DecidableEq

/-- JSON response shape; absent fields are `none`.  `httpStatus` is the
HTTP status code of the response. -/
structure ApiResp where
  httpStatus : Nat := 200
  success : Bool := false
  message : Option String := none
  status : Option String := none
  record_id : Option String := none
  result_code : Option String := none
  current_status : Option String := none
  attempts : Option Nat := none
  session_id : Option String := none
  storage_id : Option String := none
  stored_at : Option Int := none
  completed_at : Option Int := none
  timestamp : Option Int := none
  expires_in : Option String := none
  session_data : Option SessionEntry := none
  is_valid : Option Bool := none
deriving DecidableEq

/-- JS object property read: value of the first matching key. -/
def getKey {V : Type} : List (String × V) → String → Option V
  | [], _ => none
  | (k', v) :: rest, k => if k' = k then some v else getKey rest k

/-- JS object property assignment: overwrite in place, else append. -/
def setKey {V : Type} : List (String × V) → String → V → List (String × V)
  | [], k, v => [(k, v)]
  | (k', v') :: rest, k, v =>
    if k' = k then (k, v) :: rest else (k', v') :: setKey rest k v

/-- JS `delete obj[k]`: remove the key (keys of a JS object are unique). -/
def delKey {V : Type} (l : List (String × V)) (k : String) : List (String × V) :=
  l.filter (fun p => decide (¬ p.1 = k))

/-- Mutation through the result of `Array.prototype.find`: update the first
element satisfying the predicate, in place. -/
def updateFirst {α : Type} (p : α → Bool) (f : α → α) : List α → List α
  | [] => []
  | x :: xs => if p x then f x :: xs else x :: updateFirst p f xs

/-! ## The route handlers (src/server.js)

Each handler is a function from the request parameters and the current
state to the JSON response and the next state.  `Date.now()` and the
`Math.random().toString(36).substr(2, n)` suffixes are parameters. -/

/-- Handler `POST /api/store-session` (src/server.js lines 103-146): store the
session with a 30-minute `expires_at`, then sweep entries whose
`stored_at` is older than 24 hours. -/
def storeSession (st : ServerState) (session_data : Option String) (now : Int)
    (suffix : String) : ApiResp × ServerState :=
  match session_data with
  | none => ({ httpStatus := 400, message := some "Session data required" }, st)
  | some payload =>
    let sessionId := "SESS_" ++ natDigits now.toNat ++ "_" ++ suffix
    let entry : SessionEntry :=
      { payload := payload, stored_at := now, expires_at := now + 30 * 60 * 1000 }
    let swept :=
      (setKey st.sessionStorage sessionId entry).filter
        (fun p => decide (now - 24 * 60 * 60 * 1000 ≤ p.2.stored_at))
    ({ success := true, session_id := some sessionId,
       message := some "Session stored successfully", expires_in := some "30 minutes" },
     { st with sessionStorage := swept })

/-- Handler `GET /api/get-session` (src/server.js lines 149-192): missing id gives
400; unknown id gives a not-found failure; an entry past its `expires_at`
is deleted and reported expired; otherwise the session is returned. -/
def getSession (st : ServerState) (session_id : String) (now : Int) :
    ApiResp × ServerState :=
  if session_id = "" then
    ({ httpStatus := 400, message := some "Session ID required" }, st)
  else
    match getKey st.sessionStorage session_id with
    | none => ({ message := some "Session not found or expired" }, st)
    | some s =>
      if s.expires_at < now then
        ({ message := some "Session expired" },
         { st with sessionStorage := delKey st.sessionStorage session_id })
      else
        ({ success := true, session_id := some session_id, session_data := some s,
           is_valid := some true }, st)

/-- Handler `POST /api/store-data` (src/server.js lines 547-580): store the data
with no `expires_at`, then sweep entries whose `stored_at` is older than
one hour. -/
def storeData (st : ServerState) (data : Option DataVal) (source page_url : String)
    (now : Int) (suffix : String) : ApiResp × ServerState :=
  match data with
  | none => ({ httpStatus := 400, message := some "Data required" }, st)
  | some v =>
    let storageId := "FS_STORE_" ++ natDigits now.toNat ++ "_" ++ suffix
    let entry : DataEntry :=
      { dataVal := some v, source := if source = "" then "unknown" else source,
        page_url := page_url, stored_at := now, status := "stored" }
    let swept :=
      (setKey st.dataStorage storageId entry).filter
        (fun p => decide (now - 60 * 60 * 1000 ≤ p.2.stored_at))
    ({ success := true, storage_id := some storageId,
       message := some "Data stored successfully", timestamp := some now },
     { st with dataStorage := swept })

/-- The record pushed by `POST /api/save-selfie`. -/
def newSelfieRecord (selfie_code client_name encrypted_code : String) (now : Int)
    (suffix ip ua : String) : SelfieRecord :=
  { id := generateId now suffix, selfie_code := selfie_code, client_name := client_name,
    encrypted_code := encrypted_code, source := "forbes_extension", status := "pending",
    result_code := "", created_at := now, updated_at := now, ip_address := ip,
    user_agent := ua }

/-- Handler `POST /api/save-selfie` (src/server.js lines 674-696): push a record,
create a pending status record keyed by the selfie code, and cap the
record array at its most recent 1000 entries (`slice(-1000)`). -/
def saveSelfie (st : ServerState) (selfie_code client_name encrypted_code : String)
    (now : Int) (suffix ip ua : String) : ApiResp × ServerState :=
  if selfie_code = "" ∨ encrypted_code = "" then
    ({ httpStatus := 400, message := some "selfie_code & encrypted_code required" }, st)
  else
    let record := newSelfieRecord selfie_code client_name encrypted_code now suffix ip ua
    let pushed := st.selfieRecords ++ [record]
    let capped := if 1000 < pushed.length then pushed.drop (pushed.length - 1000) else pushed
    let newStatus : StatusRecord :=
      { status := "pending", attempts := 0, created_at := now, result_code := "" }
    ({ success := true, record_id := some record.id, message := some "Saved",
       timestamp := some now },
     { st with selfieRecords := capped,
               statusRecords := setKey st.statusRecords selfie_code newStatus })

/-- The in-place mutation of a status record performed by one call to
`GET /api/check-status`: increment `attempts`, then set `status` by the
attempt count, minting a result code on first reaching `completed`. -/
def checkStatusUpdate (r : StatusRecord) (suffix : String) (now : Int) : StatusRecord :=
  if r.attempts + 1 < 3 then { r with attempts := r.attempts + 1, status := "processing" }
  else if r.attempts + 1 < 6 then { r with attempts := r.attempts + 1, status := "ready" }
  else if r.attempts + 1 < 9 then
    { r with
        attempts := r.attempts + 1,
        status := "completed",
        result_code := if r.result_code = "" then mintResultCode suffix now else r.result_code }
  else { r with attempts := r.attempts + 1, status := "failed" }

/-- Handler `GET /api/check-status` (src/server.js lines 698-718). -/
def checkStatus (st : ServerState) (selfie_code : String) (now : Int) (suffix : String) :
    ApiResp × ServerState :=
  if selfie_code = "" then
    ({ httpStatus := 400, message := some "selfie_code required" }, st)
  else
    match getKey st.statusRecords selfie_code with
    | none => ({ message := some "Not found", status := some "not_found" }, st)
    | some r =>
      let r2 := checkStatusUpdate r suffix now
      ({ success := true, status := some r2.status, attempts := some r2.attempts,
         result_code := if r2.result_code = "" then none else some r2.result_code },
       { st with statusRecords := setKey st.statusRecords selfie_code r2 })

/-- Handler `GET /api/get-result` (src/server.js lines 720-733). -/
def getResult (st : ServerState) (selfie_code : String) : ApiResp × ServerState :=
  if selfie_code = "" then
    ({ httpStatus := 400, message := some "selfie_code required" }, st)
  else
    match getKey st.statusRecords selfie_code with
    | none => ({ message := some "Not found" }, st)
    | some r =>
      if r.status ≠ "completed" then
        ({ message := some "Not completed yet", current_status := some r.status }, st)
      else
        ({ success := true,
           result_code := if r.result_code = "" then none else some r.result_code,
           status := some r.status, attempts := some r.attempts }, st)

/-- Serialized-JSON bytes used for the synthetic record of
`/api/check-selfie-status`: `JSON.stringify(storedData.data || {})`. -/
def jsonBytes (sd : DataEntry) : List Nat :=
  match sd.dataVal with
  | some v => v.json
  | none => [123, 125]

/-- Byte list rendered as the string of its character codes (the base64
text produced by `encryptData` read back as a JS string). -/
def asciiString (bs : List Nat) : String := String.mk (bs.map Char.ofNat)

/-- The synthetic completed record that `/api/check-selfie-status` pushes
when a stored-data entry passes the 3-minute threshold. -/
def fromStorageRecord (sd : DataEntry) (rc newId encCode : String) (now : Int) :
    SelfieRecord :=
  { id := newId,
    selfie_code :=
      match sd.dataVal with
      | some v => if v.selfie_code = "" then rc else v.selfie_code
      | none => rc,
    client_name := "from_storage", encrypted_code := encCode,
    source := if sd.source = "" then "data_storage" else sd.source,
    status := "completed", result_code := rc,
    created_at := sd.stored_at, updated_at := now,
    ip_address := "127.0.0.1", user_agent := "Data Storage" }

/-- Handler `GET /api/check-selfie-status` (src/server.js lines 583-672): look in
`dataStorage`, else among the selfie records (by id or selfie code);
status is a function of elapsed minutes, and past 3 minutes a result code
is minted, mutating the found record in place (record branch) or pushing a
new completed record without any cap (stored-data branch). -/
def checkSelfieStatus (C : BlockCipher) (keyStr encIV : List Nat) (st : ServerState)
    (id : String) (now : Int) (suffix genSuffix : String) : ApiResp × ServerState :=
  if id = "" then ({ httpStatus := 400, message := some "ID required" }, st)
  else
    match getKey st.dataStorage id with
    | some sd =>
      if now - sd.stored_at < 60000 then
        ({ success := true, status := some "not_started", stored_at := some sd.stored_at }, st)
      else if now - sd.stored_at < 120000 then
        ({ success := true, status := some "processing", stored_at := some sd.stored_at }, st)
      else if now - sd.stored_at < 180000 then
        ({ success := true, status := some "pending", stored_at := some sd.stored_at }, st)
      else
        let rc := mintResultCode suffix now
        let record := fromStorageRecord sd rc (generateId now genSuffix)
          (asciiString (encryptData C keyStr encIV (jsonBytes sd))) now
        ({ success := true, status := some "completed", result_code := some rc,
           completed_at := some now },
         { st with selfieRecords := st.selfieRecords ++ [record] })
    | none =>
      match st.selfieRecords.find? (fun r => r.id == id || r.selfie_code == id) with
      | none => ({ message := some "Record not found", status := some "not_found" }, st)
      | some r =>
        if r.result_code ≠ "" then
          ({ success := true, status := some "completed", result_code := some r.result_code,
             completed_at := some r.updated_at }, st)
        else if now - r.created_at < 60000 then
          ({ success := true, status := some "not_started", stored_at := some r.created_at }, st)
        else if now - r.created_at < 120000 then
          ({ success := true, status := some "processing", stored_at := some r.created_at }, st)
        else if now - r.created_at < 180000 then
          ({ success := true, status := some "pending", stored_at := some r.created_at }, st)
        else
          let rc := mintResultCode suffix now
          let upd := updateFirst (fun q => q.id == id || q.selfie_code == id)
            (fun q => { q with result_code := rc, status := "completed", updated_at := now })
            st.selfieRecords
          ({ success := true, status := some "completed", result_code := some rc,
             completed_at := some now },
           { st with selfieRecords := upd })

/-! ## Store lemmas -/

theorem getKey_setKey_self {V : Type} (l : List (String × V)) (k : String) (v : V) :
    getKey (setKey l k v) k = some v := by
  induction l with
  | nil => simp [setKey, getKey]
  | cons p rest ih =>
    obtain ⟨k', v'⟩ := p
    by_cases h : k' = k
    · simp [setKey, h, getKey]
    · simp [setKey, h, getKey, ih]

theorem getKey_setKey_isSome {V : Type} (l : List (String × V)) (k k' : String) (v : V)
    (h : (getKey l k').isSome) : (getKey (setKey l k v) k').isSome := by
  induction l with
  | nil => simp [getKey] at h
  | cons p rest ih =>
    obtain ⟨k1, v1⟩ := p
    by_cases h1 : k1 = k
    · by_cases h2 : k = k'
      · simp [setKey, h1, getKey, h2]
      · rw [getKey] at h
        rw [setKey, if_pos h1, getKey, if_neg h2]
        rw [h1, if_neg h2] at h
        exact h
    · by_cases h2 : k1 = k'
      · rw [setKey, if_neg h1, getKey, if_pos h2]
        simp
      · rw [getKey, if_neg h2] at h
        rw [setKey, if_neg h1, getKey, if_neg h2]
        exact ih h

theorem getKey_mem {V : Type} (l : List (String × V)) (k : String) (v : V)
    (h : getKey l k = some v) : (k, v) ∈ l := by
  induction l with
  | nil => simp [getKey] at h
  | cons p rest ih =>
    obtain ⟨k', v'⟩ := p
    rw [getKey] at h
    by_cases h1 : k' = k
    · rw [if_pos h1] at h
      injection h with h2
      simp [h1, h2]
    · rw [if_neg h1] at h
      simp [ih h]

theorem mem_setKey {V : Type} (l : List (String × V)) (k : String) (v : V) :
    ∀ p ∈ setKey l k v, p = (k, v) ∨ p ∈ l := by
  induction l with
  | nil => intro p hp; simp [setKey] at hp; simp [hp]
  | cons q rest ih =>
    obtain ⟨k', v'⟩ := q
    intro p hp
    by_cases h1 : k' = k
    · rw [setKey, if_pos h1] at hp
      rcases List.mem_cons.mp hp with h2 | h2
      · exact Or.inl h2
      · exact Or.inr (by simp [h2])
    · rw [setKey, if_neg h1] at hp
      rcases List.mem_cons.mp hp with h2 | h2
      · exact Or.inr (by simp [h2])
      · rcases ih p h2 with h3 | h3
        · exact Or.inl h3
        · exact Or.inr (by simp [h3])

theorem getKey_delKey {V : Type} (l : List (String × V)) (k : String) :
    getKey (delKey l k) k = none := by
  induction l with
  | nil => rfl
  | cons p rest ih =>
    obtain ⟨k', v'⟩ := p
    by_cases h : k' = k
    · simpa [delKey, List.filter, h] using ih
    · simpa [delKey, List.filter, h, getKey] using ih

theorem find?_updateFirst {α : Type} (p : α → Bool) (f : α → α) (l : List α) (x : α)
    (hl : l.find? p = some x) (hf : p (f x) = true) :
    (updateFirst p f l).find? p = some (f x) := by
  induction l with
  | nil => simp [List.find?] at hl
  | cons a as ih =>
    by_cases h : p a
    · rw [List.find?_cons_of_pos _ h] at hl
      injection hl with h2
      rw [updateFirst, if_pos h, h2, List.find?_cons_of_pos _ hf]
    · rw [List.find?_cons_of_neg _ (by simp [h])] at hl
      rw [updateFirst, if_neg (by simp [h]), List.find?_cons_of_neg _ (by simp [h]), ih hl]

/-! ## String lemmas for minted identifiers -/

theorem string_eq_empty_of_data (p : String) (h : p.data = []) : p = "" := by
  cases p with
  | mk l => exact congrArg String.mk h

theorem str_append_ne_empty (p q : String) (hp : p ≠ "") : p ++ q ≠ "" := by
  intro hcontra
  apply hp
  have hd := congrArg String.data hcontra
  rw [String.data_append] at hd
  exact string_eq_empty_of_data p (List.append_eq_nil.mp hd).1

theorem generateId_ne_empty (now : Int) (suffix : String) : generateId now suffix ≠ "" := by
  rw [generateId]
  exact str_append_ne_empty _ _ (str_append_ne_empty _ _ (str_append_ne_empty _ _ (by decide)))

theorem generateId_FS (now : Int) (suffix : String) :
    ∃ t, generateId now suffix = "FS_" ++ t := by
  refine ⟨natDigits now.toNat ++ ("_" ++ suffix), ?_⟩
  rw [generateId, String.append_assoc, String.append_assoc]

theorem mintResultCode_ne_empty (suffix : String) (now : Int) :
    mintResultCode suffix now ≠ "" := by
  rw [mintResultCode]
  exact str_append_ne_empty _ _ (str_append_ne_empty _ _ (str_append_ne_empty _ _ (by decide)))

theorem natDigitsAux_digits : ∀ fuel n : Nat, (natDigitsAux fuel n).all Char.isDigit = true := by
  have hd : ∀ m : Nat, ((digitChars[m]?).getD (Char.ofNat 48)).isDigit = true := by
    intro m
    by_cases h : m < 10
    · have hball : ∀ m < 10, ((digitChars[m]?).getD (Char.ofNat 48)).isDigit = true := by decide
      exact hball m h
    · rw [List.getElem?_eq_none]
      · decide
      · simp [digitChars]; omega
  intro fuel
  induction fuel with
  | zero => intro n; rfl
  | succ f ih =>
    intro n
    rw [natDigitsAux]
    split
    · simp [hd]
    · rw [List.all_append, ih]
      simp [hd]

theorem natDigitsAux_ne_nil (fuel n : Nat) : natDigitsAux (fuel + 1) n ≠ [] := by
  rw [natDigitsAux]
  split
  · simp
  · intro h
    have := congrArg List.length h
    simp [List.length_append] at this

theorem natDigits_ne_empty (n : Nat) : natDigits n ≠ "" := by
  rw [natDigits]
  intro h
  have hd := congrArg String.data h
  simp only at hd
  exact natDigitsAux_ne_nil n n hd

theorem natDigits_digits (n : Nat) : (natDigits n).data.all Char.isDigit = true := by
  rw [natDigits]
  exact natDigitsAux_digits (n + 1) n

theorem jsUpperChar_alnum (c : Char) (h : c.isAlphanum = true) :
    (jsUpperChar c).isAlphanum = true := by
  rw [jsUpperChar]
  cases hf : lowerUpperPairs.find? (fun p => p.1 == c) with
  | none => simpa using h
  | some p =>
    have hp : p ∈ lowerUpperPairs := List.mem_of_find?_eq_some hf
    have hall : ∀ q ∈ lowerUpperPairs, (q.2).isAlphanum = true := by decide
    simpa using hall p hp

theorem jsUpper_alnum (s : String) (h : s.data.all Char.isAlphanum = true) :
    (jsUpper s).data.all Char.isAlphanum = true := by
  rw [jsUpper]
  simp only [List.all_map]
  rw [List.all_eq_true] at h ⊢
  intro c hc
  exact jsUpperChar_alnum c (h c hc)

theorem jsUpper_ne_empty (s : String) (h : s ≠ "") : jsUpper s ≠ "" := by
  intro hcontra
  apply h
  have hd := congrArg String.data hcontra
  rw [jsUpper] at hd
  exact string_eq_empty_of_data s (List.map_eq_nil_iff.mp hd)

/-- The result-code pattern `RESULT_<alnum>_<digits>` of the spec. -/
def matchesResultPattern (s : String) : Prop :=
  ∃ a b : String, s = "RESULT_" ++ a ++ "_" ++ b ∧ a ≠ "" ∧
    a.data.all Char.isAlphanum = true ∧ b ≠ "" ∧ b.data.all Char.isDigit = true

theorem mint_matchesResultPattern (suffix : String) (now : Int) (h1 : suffix ≠ "")
    (h2 : suffix.data.all Char.isAlphanum = true) :
    matchesResultPattern (mintResultCode suffix now) :=
  ⟨jsUpper suffix, natDigits now.toNat, rfl, jsUpper_ne_empty suffix h1,
    jsUpper_alnum suffix h2, natDigits_ne_empty _, natDigits_digits _⟩

/-! ## C4: save-selfie then check-status -/

/-- The status enumeration of the spec. -/
def statusEnum : List String := ["pending", "processing", "ready", "completed", "failed"]

/-- Run a sequence of `GET /api/check-status` polls for one selfie code,
each with its own clock value and random suffix. -/
def runChecks (code : String) : ServerState → List (Int × String) → ServerState
  | st, [] => st
  | st, (n, sf) :: rest => runChecks code (checkStatus st code n sf).2 rest

theorem checkStatusUpdate_status_mem (r : StatusRecord) (suffix : String) (now : Int) :
    (checkStatusUpdate r suffix now).status ∈ statusEnum := by
  rw [checkStatusUpdate]
  split
  · simp [statusEnum]
  · split
    · simp [statusEnum]
    · split
      · simp [statusEnum]
      · simp [statusEnum]

theorem checkStatus_keeps (st : ServerState) (code : String) (now : Int) (sf k : String)
    (h : (getKey st.statusRecords k).isSome) :
    (getKey (checkStatus st code now sf).2.statusRecords k).isSome := by
  rw [checkStatus]
  split
  · exact h
  · cases hg : getKey st.statusRecords code with
    | none => simpa [hg] using h
    | some r => simpa [hg] using getKey_setKey_isSome st.statusRecords code k _ h

theorem runChecks_keeps (code k : String) :
    ∀ checks : List (Int × String), ∀ st : ServerState,
      (getKey st.statusRecords k).isSome →
      (getKey (runChecks code st checks).statusRecords k).isSome := by
  intro checks
  induction checks with
  | nil => intro st h; exact h
  | cons c rest ih =>
    intro st h
    obtain ⟨n, sf⟩ := c
    exact ih (checkStatus st code n sf).2 (checkStatus_keeps st code n sf k h)

theorem checkStatus_found (st : ServerState) (code : String) (now : Int) (sf : String)
    (hcode : code ≠ "") (r : StatusRecord) (hg : getKey st.statusRecords code = some r) :
    (checkStatus st code now sf).1.success = true ∧
    (checkStatus st code now sf).1.status = some (checkStatusUpdate r sf now).status := by
  rw [checkStatus, if_neg hcode, hg]
  exact ⟨rfl, rfl⟩

/-- C4: `POST /api/save-selfie` with non-empty `selfie_code` and
`encrypted_code` returns success with the non-empty `FS_`-prefixed record
id, creates a status record for the code, and after any sequence of
subsequent `GET /api/check-status` polls a further poll returns success
with a status drawn from the enumeration
pending/processing/ready/completed/failed. -/
theorem C4_save_then_check (st : ServerState) (code cname enc : String) (now : Int)
    (suffix ip ua : String) (checks : List (Int × String)) (n2 : Int) (sf2 : String)
    (hcode : code ≠ "") (henc : enc ≠ "") :
    (saveSelfie st code cname enc now suffix ip ua).1.success = true ∧
    (saveSelfie st code cname enc now suffix ip ua).1.httpStatus = 200 ∧
    (saveSelfie st code cname enc now suffix ip ua).1.record_id =
      some (generateId now suffix) ∧
    generateId now suffix ≠ "" ∧
    (∃ t, generateId now suffix = "FS_" ++ t) ∧
    (getKey (saveSelfie st code cname enc now suffix ip ua).2.statusRecords code).isSome ∧
    (checkStatus (runChecks code (saveSelfie st code cname enc now suffix ip ua).2 checks)
        code n2 sf2).1.success = true ∧
    (∃ s, (checkStatus (runChecks code (saveSelfie st code cname enc now suffix ip ua).2
        checks) code n2 sf2).1.status = some s ∧ s ∈ statusEnum) := by
  have hif : ¬ (code = "" ∨ enc = "") := by
    intro h
    rcases h with h | h
    · exact hcode h
    · exact henc h
  have hsave : (getKey (saveSelfie st code cname enc now suffix ip ua).2.statusRecords
      code).isSome := by
    simp only [saveSelfie, if_neg hif]
    rw [getKey_setKey_self]
    rfl
  have hkeeps := runChecks_keeps code code checks _ hsave
  obtain ⟨r, hr⟩ := Option.isSome_iff_exists.mp hkeeps
  refine ⟨?_, ?_, ?_, generateId_ne_empty now suffix, generateId_FS now suffix, hsave, ?_, ?_⟩
  · simp [saveSelfie, if_neg hif]
  · simp [saveSelfie, if_neg hif]
  · simp [saveSelfie, if_neg hif, newSelfieRecord, generateId]
  · exact (checkStatus_found _ code n2 sf2 hcode r hr).1
  · exact ⟨(checkStatusUpdate r sf2 n2).status,
      (checkStatus_found _ code n2 sf2 hcode r hr).2,
      checkStatusUpdate_status_mem r sf2 n2⟩

theorem C4_witness :
    ("X" : String) ≠ "" ∧ ("Y" : String) ≠ "" ∧
    (saveSelfie {} "X" "unknown" "Y" 7 "ab" "ip" "ua").1.success = true ∧
    (saveSelfie {} "X" "unknown" "Y" 7 "ab" "ip" "ua").1.httpStatus = 200 ∧
    (saveSelfie {} "X" "unknown" "Y" 7 "ab" "ip" "ua").1.record_id =
      some (generateId 7 "ab") ∧
    generateId 7 "ab" ≠ "" ∧
    (∃ t, generateId 7 "ab" = "FS_" ++ t) ∧
    (getKey (saveSelfie {} "X" "unknown" "Y" 7 "ab" "ip" "ua").2.statusRecords "X").isSome ∧
    (checkStatus (runChecks "X" (saveSelfie {} "X" "unknown" "Y" 7 "ab" "ip" "ua").2
        [(8, "cd")]) "X" 9 "ef").1.success = true ∧
    (∃ s, (checkStatus (runChecks "X" (saveSelfie {} "X" "unknown" "Y" 7 "ab" "ip" "ua").2
        [(8, "cd")]) "X" 9 "ef").1.status = some s ∧ s ∈ statusEnum) := by
  have h := C4_save_then_check {} "X" "unknown" "Y" 7 "ab" "ip" "ua" [(8, "cd")] 9 "ef"
    (by decide) (by decide)
  exact ⟨by decide, by decide, h.1, h.2.1, h.2.2.1, h.2.2.2.1, h.2.2.2.2.1,
    h.2.2.2.2.2.1, h.2.2.2.2.2.2.1, h.2.2.2.2.2.2.2⟩

/-! ## C8: check-status on unknown code and missing parameter -/

/-- C8: `GET /api/check-status` on an unknown selfie code answers HTTP 200
with success false and status `not_found`, leaving the whole state
unchanged; a request missing the `selfie_code` parameter answers HTTP 400
with success false and a message, also leaving the state unchanged. -/
theorem C8_not_found_and_missing (st : ServerState) (code : String) (now : Int)
    (sf : String) (hcode : code ≠ "") (hnf : getKey st.statusRecords code = none) :
    checkStatus st code now sf =
      ({ httpStatus := 200, success := false, message := some "Not found",
         status := some "not_found" }, st) ∧
    (checkStatus st "" now sf).1.httpStatus = 400 ∧
    (checkStatus st "" now sf).1.success = false ∧
    (checkStatus st "" now sf).1.message = some "selfie_code required" ∧
    (checkStatus st "" now sf).2 = st := by
  refine ⟨?_, ?_, ?_, ?_, ?_⟩
  · rw [checkStatus, if_neg hcode, hnf]
  · rw [checkStatus, if_pos rfl]
  · rw [checkStatus, if_pos rfl]
  · rw [checkStatus, if_pos rfl]
  · rw [checkStatus, if_pos rfl]

theorem C8_witness :
    ("Z" : String) ≠ "" ∧ getKey (ServerState.statusRecords {}) "Z" = none ∧
    checkStatus {} "Z" 5 "ab" =
      ({ httpStatus := 200, success := false, message := some "Not found",
         status := some "not_found" }, {}) ∧
    (checkStatus {} "" 5 "ab").1.httpStatus = 400 ∧
    (checkStatus {} "" 5 "ab").1.success = false ∧
    (checkStatus {} "" 5 "ab").1.message = some "selfie_code required" ∧
    (checkStatus {} "" 5 "ab").2 = {} := by
  have h := C8_not_found_and_missing {} "Z" 5 "ab" (by decide) (by rfl)
  exact ⟨by decide, by rfl, h.1, h.2.1, h.2.2.1, h.2.2.2.1, h.2.2.2.2⟩

/-! ## C6: elapsed-time heuristic of check-selfie-status -/

/-- C6: for a selfie record without a result code, found by id or selfie
code while absent from `dataStorage`, the reply of
`GET /api/check-selfie-status` is a function of the elapsed time since
`created_at`: under 1 minute `not_started`, from 1 to 2 minutes
`processing`, from 2 to 3 minutes `pending` (all leaving the state
unchanged), and from 3 minutes on a result code is minted, the stored
record is mutated in place to a completed state with `updated_at` set to
the current time, and the reply carries `completed` and that code. -/
theorem C6_elapsed_time_heuristic (C : BlockCipher) (keyStr encIV : List Nat)
    (st : ServerState) (id : String) (now : Int) (suffix genSuffix : String)
    (r : SelfieRecord) (hid : id ≠ "") (hds : getKey st.dataStorage id = none)
    (hfind : st.selfieRecords.find? (fun q => q.id == id || q.selfie_code == id) = some r)
    (hrc : r.result_code = "") :
    (now - r.created_at < 60000 →
      checkSelfieStatus C keyStr encIV st id now suffix genSuffix =
        ({ success := true, status := some "not_started",
           stored_at := some r.created_at }, st)) ∧
    (60000 ≤ now - r.created_at → now - r.created_at < 120000 →
      checkSelfieStatus C keyStr encIV st id now suffix genSuffix =
        ({ success := true, status := some "processing",
           stored_at := some r.created_at }, st)) ∧
    (120000 ≤ now - r.created_at → now - r.created_at < 180000 →
      checkSelfieStatus C keyStr encIV st id now suffix genSuffix =
        ({ success := true, status := some "pending",
           stored_at := some r.created_at }, st)) ∧
    (180000 ≤ now - r.created_at →
      (checkSelfieStatus C keyStr encIV st id now suffix genSuffix).1 =
        { success := true, status := some "completed",
          result_code := some (mintResultCode suffix now), completed_at := some now } ∧
      (checkSelfieStatus C keyStr encIV st id now suffix
          genSuffix).2.selfieRecords.find? (fun q => q.id == id || q.selfie_code == id) =
        some { r with
                 result_code := mintResultCode suffix now,
                 status := "completed",
                 updated_at := now }) := by
  have hred : checkSelfieStatus C keyStr encIV st id now suffix genSuffix =
      (if now - r.created_at < 60000 then
        ({ success := true, status := some "not_started",
           stored_at := some r.created_at }, st)
      else if now - r.created_at < 120000 then
        ({ success := true, status := some "processing",
           stored_at := some r.created_at }, st)
      else if now - r.created_at < 180000 then
        ({ success := true, status := some "pending",
           stored_at := some r.created_at }, st)
      else
        ({ success := true, status := some "completed",
           result_code := some (mintResultCode suffix now), completed_at := some now },
         { st with selfieRecords := (updateFirst
            (fun q => q.id == id || q.selfie_code == id)
            (fun q => { q with
              result_code := mintResultCode suffix now,
              status := "completed",
              updated_at := now })
            st.selfieRecords) })) := by
    simp only [checkSelfieStatus, if_neg hid, hds, hfind, if_neg (not_not_intro hrc)]
  refine ⟨?_, ?_, ?_, ?_⟩
  · intro h1
    rw [hred, if_pos h1]
  · intro h1 h2
    rw [hred, if_neg (by omega), if_pos h2]
  · intro h1 h2
    rw [hred, if_neg (by omega), if_neg (by omega), if_pos h2]
  · intro h1
    rw [hred, if_neg (by omega), if_neg (by omega), if_neg (by omega)]
    refine ⟨rfl, find?_updateFirst _ _ _ r hfind ?_⟩
    simpa using List.find?_some hfind

/-- Record used in the C6 witness. -/
def c6rec : SelfieRecord := newSelfieRecord "X" "n" "Y" 0 "ab" "ip" "ua"

theorem C6_witness :
    ("X" : String) ≠ "" ∧
    getKey (ServerState.dataStorage { selfieRecords := [c6rec] }) "X" = none ∧
    [c6rec].find? (fun q => q.id == "X" || q.selfie_code == "X") = some c6rec ∧
    c6rec.result_code = "" ∧
    (checkSelfieStatus idCipher [] [] { selfieRecords := [c6rec] } "X" 180000
        "ab" "cd").1 =
      { success := true, status := some "completed",
        result_code := some (mintResultCode "ab" 180000), completed_at := some 180000 } := by
  have h := C6_elapsed_time_heuristic idCipher [] [] { selfieRecords := [c6rec] } "X"
    180000 "ab" "cd" c6rec (by decide) (by rfl) (by decide) (by rfl)
  exact ⟨by decide, by rfl, by decide, by rfl, (h.2.2.2 (by decide)).1⟩

/-! ## C7: get-result before and after completion -/

/-- Invariant of the `statusRecords` store: every stored result code was
minted by `check-status` and hence matches `RESULT_<alnum>_<digits>`, and a
completed record always carries a result code. -/
def StatusInv (l : List (String × StatusRecord)) : Prop :=
  ∀ p ∈ l, (p.2.result_code ≠ "" → matchesResultPattern p.2.result_code) ∧
    (p.2.status = "completed" → p.2.result_code ≠ "")

theorem statusInv_nil : StatusInv [] := by
  intro p hp
  simp at hp

theorem statusInv_saveSelfie (st : ServerState) (code cname enc : String) (now : Int)
    (suffix ip ua : String) (h : StatusInv st.statusRecords) :
    StatusInv (saveSelfie st code cname enc now suffix ip ua).2.statusRecords := by
  rw [saveSelfie]
  split
  · exact h
  · intro p hp
    rcases mem_setKey _ _ _ p hp with h1 | h1
    · rw [h1]
      exact ⟨fun hc => absurd rfl hc, fun hc => by simp at hc⟩
    · exact h p h1

theorem checkStatusUpdate_inv (r : StatusRecord) (suffix : String) (now : Int)
    (hr : (r.result_code ≠ "" → matchesResultPattern r.result_code) ∧
      (r.status = "completed" → r.result_code ≠ ""))
    (hs1 : suffix ≠ "") (hs2 : suffix.data.all Char.isAlphanum = true) :
    ((checkStatusUpdate r suffix now).result_code ≠ "" →
      matchesResultPattern (checkStatusUpdate r suffix now).result_code) ∧
    ((checkStatusUpdate r suffix now).status = "completed" →
      (checkStatusUpdate r suffix now).result_code ≠ "") := by
  rw [checkStatusUpdate]
  split
  · exact ⟨hr.1, fun hc => by simp at hc⟩
  · split
    · exact ⟨hr.1, fun hc => by simp at hc⟩
    · split
      · by_cases hrc : r.result_code = ""
        · simp only [hrc, if_pos rfl]
          exact ⟨fun _ => mint_matchesResultPattern suffix now hs1 hs2,
            fun _ => mintResultCode_ne_empty suffix now⟩
        · simp only [if_neg hrc]
          exact ⟨fun _ => hr.1 hrc, fun _ => hrc⟩
      · exact ⟨hr.1, fun hc => by simp at hc⟩

theorem statusInv_checkStatus (st : ServerState) (code : String) (now : Int)
    (suffix : String) (h : StatusInv st.statusRecords) (hs1 : suffix ≠ "")
    (hs2 : suffix.data.all Char.isAlphanum = true) :
    StatusInv (checkStatus st code now suffix).2.statusRecords := by
  rw [checkStatus]
  split
  · exact h
  · cases hg : getKey st.statusRecords code with
    | none => simpa [hg] using h
    | some r =>
      simp only [hg]
      intro p hp
      rcases mem_setKey _ _ _ p hp with h1 | h1
      · rw [h1]
        exact checkStatusUpdate_inv r suffix now (h (code, r) (getKey_mem _ _ _ hg)) hs1 hs2
      · exact h p h1

/-- C7: under the status-store invariant (established for the empty store
and preserved by `save-selfie` and `check-status`, whose minted codes give
the invariant its pattern), `GET /api/get-result` on a known selfie code
whose record is not completed answers success false with that status as
`current_status` and no result code, and on a completed record answers
success true with a result code matching `RESULT_<alnum>_<digits>`; the
state is never changed. -/
theorem C7_get_result (st : ServerState) (code : String) (r : StatusRecord)
    (hinv : StatusInv st.statusRecords) (hcode : code ≠ "")
    (hget : getKey st.statusRecords code = some r) :
    (r.status ≠ "completed" →
      getResult st code =
        ({ message := some "Not completed yet", current_status := some r.status }, st)) ∧
    (r.status = "completed" →
      (getResult st code).1.success = true ∧
      ∃ rc, (getResult st code).1.result_code = some rc ∧ matchesResultPattern rc) ∧
    (getResult st code).2 = st := by
  have hr := hinv (code, r) (getKey_mem _ _ _ hget)
  refine ⟨?_, ?_, ?_⟩
  · intro hne
    simp only [getResult, if_neg hcode, hget]
    rw [if_pos hne]
  · intro hc
    have hrc : r.result_code ≠ "" := hr.2 hc
    simp only [getResult, if_neg hcode, hget]
    rw [if_neg (not_not_intro hc)]
    exact ⟨rfl, r.result_code, by simp [hrc], hr.1 hrc⟩
  · simp only [getResult, if_neg hcode, hget]
    split
    · rfl
    · rfl

/-- Completed status record used in the C7 witness. -/
def c7rec : StatusRecord :=
  { status := "completed", attempts := 6, created_at := 0, result_code := "RESULT_AB_12" }

/-- Status store used in the C7 witness. -/
def c7store : List (String × StatusRecord) := [("X", c7rec)]

theorem c7store_inv : StatusInv c7store := by
  intro p hp
  have hp2 : p = ("X", c7rec) := by
    simpa [c7store] using hp
  rw [hp2]
  constructor
  · intro _
    exact ⟨"AB", "12", by decide, by decide, by decide, by decide, by decide⟩
  · intro _
    decide

theorem C7_witness :
    StatusInv c7store ∧ ("X" : String) ≠ "" ∧
    getKey c7store "X" = some c7rec ∧
    (getResult { statusRecords := c7store } "X").1.success = true ∧
    (∃ rc, (getResult { statusRecords := c7store } "X").1.result_code = some rc ∧
      matchesResultPattern rc) ∧
    (getResult { statusRecords := c7store } "X").2 =
      ({ statusRecords := c7store } : ServerState) := by
  have h := C7_get_result { statusRecords := c7store } "X" c7rec
    c7store_inv (by decide) (by rfl)
  exact ⟨c7store_inv, by decide, by rfl, (h.2.1 rfl).1, (h.2.1 rfl).2, h.2.2⟩

/-! ## C5: the 1000-entry cap -/

/-- State with a full record store and one stored-data entry, used to
exhibit the uncapped push of `/api/check-selfie-status`. -/
def c5State : ServerState :=
  { selfieRecords := List.replicate 1000 c6rec, dataStorage := [("D", { stored_at := 0 })] }

/-- C5 counterexample: from a state already holding 1000 selfie records,
`GET /api/check-selfie-status` on a stored-data entry past the 3-minute
threshold pushes a 1001st record - the cap is not maintained by every
operation that appends to `selfieRecords`. -/
theorem c5State_len : c5State.selfieRecords.length = 1000 := by
  rw [show c5State.selfieRecords = List.replicate 1000 c6rec from rfl,
    List.length_replicate]

theorem C5_counterexample :
    c5State.selfieRecords.length = 1000 ∧
    (checkSelfieStatus idCipher [] [] c5State "D" 180000 "ab"
        "cd").2.selfieRecords.length = 1001 := by
  refine ⟨c5State_len, ?_⟩
  have hg : getKey c5State.dataStorage "D" = some { stored_at := 0 } := rfl
  simp only [checkSelfieStatus, if_neg (show ¬("D" : String) = "" by decide), hg]
  rw [if_neg (by decide), if_neg (by decide), if_neg (by decide)]
  rw [show ({ c5State with selfieRecords := c5State.selfieRecords ++
      [fromStorageRecord { stored_at := 0 } (mintResultCode "ab" 180000)
        (generateId 180000 "cd")
        (asciiString (encryptData idCipher [] [] (jsonBytes { stored_at := 0 })))
        180000] } : ServerState).selfieRecords =
    c5State.selfieRecords ++
      [fromStorageRecord { stored_at := 0 } (mintResultCode "ab" 180000)
        (generateId 180000 "cd")
        (asciiString (encryptData idCipher [] [] (jsonBytes { stored_at := 0 })))
        180000] from rfl]
  rw [List.length_append, c5State_len]
  rfl

/-- C5 (amended): the 1000-entry cap is enforced by `POST /api/save-selfie`
alone: saving into a full store of 1000 records keeps exactly 1000 records
with the oldest evicted, and saving into any store of at most 1000 records
leaves at most 1000; the insertion performed by `/api/check-selfie-status`
(see the counterexample) does not enforce the cap. -/
theorem C5_save_cap (st : ServerState) (code cname enc : String) (now : Int)
    (suffix ip ua : String) (hcode : code ≠ "") (henc : enc ≠ "")
    (hlen : st.selfieRecords.length = 1000) :
    (saveSelfie st code cname enc now suffix ip ua).2.selfieRecords =
      st.selfieRecords.drop 1 ++ [newSelfieRecord code cname enc now suffix ip ua] ∧
    (saveSelfie st code cname enc now suffix ip ua).2.selfieRecords.length = 1000 ∧
    (∀ st2 : ServerState, ∀ c2 cn2 e2 : String, ∀ n2 : Int, ∀ sf2 ip2 ua2 : String,
      st2.selfieRecords.length ≤ 1000 →
      (saveSelfie st2 c2 cn2 e2 n2 sf2 ip2 ua2).2.selfieRecords.length ≤ 1000) := by
  have hif : ¬ (code = "" ∨ enc = "") := by
    intro h
    rcases h with h | h
    · exact hcode h
    · exact henc h
  have hpl : (st.selfieRecords ++
      [newSelfieRecord code cname enc now suffix ip ua]).length = 1001 := by
    rw [List.length_append, hlen]
    rfl
  have h1 : (saveSelfie st code cname enc now suffix ip ua).2.selfieRecords =
      st.selfieRecords.drop 1 ++ [newSelfieRecord code cname enc now suffix ip ua] := by
    simp only [saveSelfie, if_neg hif, hpl]
    rw [if_pos (by omega), show (1001 - 1000 : Nat) = 1 from rfl]
    exact List.drop_append_of_le_length (by omega)
  refine ⟨h1, ?_, ?_⟩
  · rw [h1, List.length_append, List.length_drop, hlen]
    rfl
  · intro st2 c2 cn2 e2 n2 sf2 ip2 ua2 hle
    rw [saveSelfie]
    split
    · exact hle
    · dsimp only
      split
      · rw [List.length_drop]
        omega
      · rename_i h
        omega

/-- Full record store used in the C5 witness. -/
def c5full : ServerState := { selfieRecords := List.replicate 1000 c6rec }

theorem C5_witness :
    ("X" : String) ≠ "" ∧ ("Y" : String) ≠ "" ∧ c5full.selfieRecords.length = 1000 ∧
    (saveSelfie c5full "X" "n" "Y" 7 "ab" "ip" "ua").2.selfieRecords =
      c5full.selfieRecords.drop 1 ++ [newSelfieRecord "X" "n" "Y" 7 "ab" "ip" "ua"] ∧
    (saveSelfie c5full "X" "n" "Y" 7 "ab" "ip" "ua").2.selfieRecords.length = 1000 := by
  have hl : c5full.selfieRecords.length = 1000 := by
    rw [show c5full.selfieRecords = List.replicate 1000 c6rec from rfl,
      List.length_replicate]
  have h := C5_save_cap c5full "X" "n" "Y" 7 "ab" "ip" "ua" (by decide) (by decide) hl
  exact ⟨by decide, by decide, hl, h.1, h.2.1⟩

/-! ## C9: expiry sweeping of the ephemeral stores -/

/-- A session entry whose 30-minute TTL has elapsed at time 7200000 but
whose `stored_at` is far younger than 24 hours. -/
def c9entry : SessionEntry := { payload := "p", stored_at := 0, expires_at := 1800000 }

/-- State holding only the expired-but-young session entry. -/
def c9State : ServerState := { sessionStorage := [("S", c9entry)] }

/-- C9 counterexample: a session entry whose `expires_at` TTL has elapsed
survives a subsequent `POST /api/store-session` write, because the write
sweep deletes only entries older than 24 hours, not expired ones. -/
theorem C9_counterexample :
    c9entry.expires_at < 7200000 ∧
    getKey (storeSession c9State (some "q") 7200000 "sfx").2.sessionStorage "S" =
      some c9entry := by
  constructor
  · decide
  · decide

/-- C9 (amended): the lazy sweeps delete by the store's fixed age
threshold, not by TTL: after a `store-session` write every surviving
session entry is younger than 24 hours (so a session expired by its
30-minute TTL but younger than that survives, as the counterexample
shows), and after a `store-data` write every surviving data entry is
younger than 1 hour, so a data entry whose 1-hour TTL has elapsed is
absent; an expired session is still never served: `GET /api/get-session`
on it reports failure and deletes it. -/
theorem C9_sweep_thresholds (st : ServerState) (payload : String) (d : DataVal)
    (source purl : String) (now : Int) (sfx1 sfx2 sid : String) (e : SessionEntry)
    (hsid : sid ≠ "") (hget : getKey st.sessionStorage sid = some e)
    (hexp : e.expires_at < now) :
    (∀ p ∈ (storeSession st (some payload) now sfx1).2.sessionStorage,
      now - 24 * 60 * 60 * 1000 ≤ p.2.stored_at) ∧
    (∀ p ∈ (storeData st (some d) source purl now sfx2).2.dataStorage,
      now - 60 * 60 * 1000 ≤ p.2.stored_at) ∧
    (∀ p ∈ (storeData st (some d) source purl now sfx2).2.dataStorage,
      ¬ p.2.stored_at + 60 * 60 * 1000 < now) ∧
    (getSession st sid now).1.success = false ∧
    getKey (getSession st sid now).2.sessionStorage sid = none := by
  have hdata : ∀ p ∈ (storeData st (some d) source purl now sfx2).2.dataStorage,
      now - 60 * 60 * 1000 ≤ p.2.stored_at := by
    intro p hp
    simp only [storeData] at hp
    exact of_decide_eq_true (List.mem_filter.mp hp).2
  refine ⟨?_, hdata, ?_, ?_, ?_⟩
  · intro p hp
    simp only [storeSession] at hp
    exact of_decide_eq_true (List.mem_filter.mp hp).2
  · intro p hp
    have := hdata p hp
    omega
  · simp only [getSession, if_neg hsid, hget]
    rw [if_pos hexp]
  · simp only [getSession, if_neg hsid, hget]
    rw [if_pos hexp]
    exact getKey_delKey st.sessionStorage sid

theorem C9_witness :
    ("S" : String) ≠ "" ∧ getKey c9State.sessionStorage "S" = some c9entry ∧
    c9entry.expires_at < 7200000 ∧
    (∀ p ∈ (storeSession c9State (some "q") 7200000 "s1").2.sessionStorage,
      (7200000 : Int) - 24 * 60 * 60 * 1000 ≤ p.2.stored_at) ∧
    (getSession c9State "S" 7200000).1.success = false ∧
    getKey (getSession c9State "S" 7200000).2.sessionStorage "S" = none := by
  have h := C9_sweep_thresholds c9State "q" {} "" "" 7200000 "s1" "s2" "S" c9entry
    (by decide) (by rfl) (by decide)
  exact ⟨by decide, by rfl, by decide, h.1, h.2.2.2.1, h.2.2.2.2⟩
